import Mathlib

/-!
Shallow embedding of the HFY2EPUB reconciliation pipeline
(src/hfy2epub/Downloader/downloader.py, src/hfy2epub/Downloader/validator.py,
src/hfy2epub/Processor/base_processor.py, src/hfy2epub/Processor/AJ4AD_processor.py,
src/hfy2epub/Project/project_config.py), followed by theorems settling the
frozen claims about the spec.

Modelling conventions: YAML metadata documents become structures; pandas
DataFrames become lists of records; Python sets become first-occurrence
deduplicated lists; file systems become lists of filenames; timestamps are
Int; fetch and transform collaborators are function parameters; side effects
of the processor run are recorded as an explicit event trace.
-/

namespace HFY

/-- A raw-store chapter record, as produced by Downloader.fetch_chapter:
url, title, filename, revision_date. -/
structure Chapter where
  url : String
  title : String
  filename : String
  revision_date : Int
deriving DecidableEq, Repr

/-- A chapter entry of the wiki manifest document: url and title. -/
structure WikiChapter where
  url : String
  title : String
deriving DecidableEq, Repr

/-- The wiki manifest document (subreddit, wiki_uri, wiki_section,
revision_date, chapters). -/
structure WikiData where
  subreddit : String
  wiki_uri : String
  wiki_section : String
  revision_date : Int
  chapters : List WikiChapter
deriving DecidableEq, Repr

/-- The raw-store metadata document (metadata.yaml of the raw directory). -/
structure Metadata where
  subreddit : String
  wiki_uri : String
  wiki_section : String
  revision_date : Int
  chapters : List Chapter
deriving DecidableEq, Repr

/-- The fields fetch_chapter fills from the network besides the url it was
asked for: title, filename, revision_date. -/
structure FetchResult where
  title : String
  filename : String
  revision_date : Int
deriving DecidableEq, Repr

/-- Generic first-occurrence deduplication keyed by a String key, carrying the
set of already seen keys; models Python set semantics and also
pandas drop_duplicates with keep equal to first. -/
def dedupBy (key : α → String) : List α → List String → List α
  | [], _ => []
  | x :: xs, seen =>
      if key x ∈ seen then dedupBy key xs seen
      else x :: dedupBy key xs (key x :: seen)

/-- First record of the list whose url field equals u (dict-by-url lookup). -/
def lookupUrl (l : List Chapter) (u : String) : Option Chapter :=
  l.find? (fun c => c.url == u)

/-- Whether a filename matches the glob star-dot-star used by the wipe
steps: the name contains a dot. -/
def hasDot (f : String) : Bool := f.toList.contains '.'

namespace Downloader

/-- Sort order used by delete_old_chapters:
sort_values(by=[url, revision_date], ascending=False), i.e. descending
lexicographic on (url, revision_date); urls are compared lexicographically
as their character sequences. chapRel a b holds when a may precede b. -/
def chapRel (a b : Chapter) : Prop :=
  b.url.data < a.url.data ∨ (b.url = a.url ∧ b.revision_date ≤ a.revision_date)

instance : DecidableRel chapRel := fun a b =>
  inferInstanceAs (Decidable (b.url.data < a.url.data ∨ (b.url = a.url ∧ b.revision_date ≤ a.revision_date)))

/-- Sort order used for the lookback re-check:
sort_values(by=revision_date, ascending=False). -/
def revRel (a b : Chapter) : Prop := b.revision_date ≤ a.revision_date

instance : DecidableRel revRel := fun a b =>
  inferInstanceAs (Decidable (b.revision_date ≤ a.revision_date))

/-- Downloader.delete_old_chapters: sort descending by (url, revision_date),
drop duplicate urls keeping the first (maximum-revision) row, compute the
rows to delete as the sorted rows whose url is not among the kept urls, and
return the kept rows together with the filenames whose files get removed. -/
def delete_old_chapters (chapters : List Chapter) : List Chapter × List String :=
  let df_sorted := List.insertionSort chapRel chapters
  let df_filtered := dedupBy Chapter.url df_sorted []
  let keptUrls := df_filtered.map Chapter.url
  let df_to_delete := df_sorted.filter (fun c => decide (c.url ∉ keptUrls))
  (df_filtered, df_to_delete.map Chapter.filename)

/-- validator.compare_meta_and_wiki: fail on wiki_uri mismatch, fail on
wiki_section mismatch (the subreddit field is never compared), otherwise
succeed and report the wiki urls absent from the metadata (a Python set,
modelled as a first-occurrence deduplicated list). -/
def compare_meta_and_wiki (metadata : Metadata) (wiki_data : WikiData) :
    Bool × List String :=
  if metadata.wiki_uri != wiki_data.wiki_uri then (false, [])
  else if metadata.wiki_section != wiki_data.wiki_section then (false, [])
  else
    let metaUrls := metadata.chapters.map Chapter.url
    let wikiUrls := wiki_data.chapters.map WikiChapter.url
    let missing := dedupBy id (wikiUrls.filter (fun u => decide (u ∉ metaUrls))) []
    (true, missing)

/-- The urls of the two most-recently-revised metadata records, which
Downloader.fetch_update re-enqueues after the diff
(df_chapters sorted by revision_date descending, first two urls). -/
def topTwo (chapters : List Chapter) : List String :=
  ((List.insertionSort revRel chapters).take 2).map Chapter.url

/-- The chapter record fetch_chapter builds on success: the url field is the
url it was asked to fetch, the rest comes from the network. -/
def mkChapter (u : String) (r : FetchResult) : Chapter :=
  { url := u, title := r.title, filename := r.filename, revision_date := r.revision_date }

/-- Outcome of Downloader.fetch_update: fall through to fetch_all_chapters
(metadata does not match the wiki), return None (no missing chapters), or
return the merged metadata. -/
inductive FUOutcome where
  | resync
  | noUpdate
  | updated (m : Metadata)
deriving DecidableEq, Repr

/-- Result of the fetch_update model: outcome, the raw-directory content
files after the run, and the urls that were enqueued for fetching. -/
structure FUResult where
  outcome : FUOutcome
  files : List String
  queue : List String
deriving DecidableEq, Repr

/-- Downloader.fetch_update: compare metadata against the wiki document; on
mismatch fall through to a full resync; when no chapter is missing return
early with None; otherwise enqueue the missing urls followed by the two
most-recently-revised known urls, drain the queue through fetch_chapter
(each success writes its content file and appends its record), then collapse
duplicates with delete_old_chapters and return the merged metadata. -/
def fetchUpdateModel (metadata : Metadata) (wiki_data : WikiData)
    (fetcher : String → Option FetchResult) (files : List String) : FUResult :=
  let cmp := compare_meta_and_wiki metadata wiki_data
  if cmp.1 = false then { outcome := .resync, files := files, queue := [] }
  else if cmp.2.isEmpty then { outcome := .noUpdate, files := files, queue := [] }
  else
    let queue := cmp.2 ++ topTwo metadata.chapters
    let fetched := queue.filterMap (fun u => (fetcher u).map (mkChapter u))
    let files1 := files ++ fetched.map Chapter.filename
    let appended := metadata.chapters ++ fetched
    let collapsed := delete_old_chapters appended
    let files2 := files1.filter (fun f => decide (f ∉ collapsed.2))
    { outcome := .updated { metadata with chapters := collapsed.1 },
      files := files2, queue := queue }

/-- Chapters of the store after fetch_update: the merged chapters on the
updated outcome, the untouched input chapters otherwise. -/
def resultChapters (st : FUResult) (metadata : Metadata) : List Chapter :=
  match st.outcome with
  | .updated m => m.chapters
  | _ => metadata.chapters

/-- Result of Downloader.fetch_all_chapters: the Python empty dict (falsy) or
a populated metadata dict (truthy). -/
inductive FetchAllResult where
  | emptyDict
  | withMeta (m : Metadata)
deriving DecidableEq, Repr

/-- Downloader.fetch_all_chapters: first remove every file of the raw
directory matching the glob star-dot-star (every name containing a dot,
metadata.yaml included), then, if the wiki directory holds no yaml file,
return the empty dict; otherwise rebuild metadata from the newest wiki
document by fetching every listed chapter, keeping only the successes. -/
def fetch_all_chapters (fetcher : String → Option FetchResult)
    (rawFiles : List String) (wikiFiles : List WikiData) :
    List String × FetchAllResult :=
  let files := rawFiles.filter (fun f => !(hasDot f))
  match wikiFiles with
  | [] => (files, .emptyDict)
  | w :: _ =>
    let fetched := w.chapters.filterMap (fun c => (fetcher c.url).map (mkChapter c.url))
    (files ++ fetched.map Chapter.filename,
     .withMeta { subreddit := w.subreddit, wiki_uri := w.wiki_uri,
                 wiki_section := w.wiki_section, revision_date := w.revision_date,
                 chapters := fetched })

/-- Truthiness test of Downloader.run on the value returned by the fetch: a
populated dict persists, the empty dict and None do not. -/
def persist : List String × FetchAllResult → List String × Option Metadata
  | (fs, .emptyDict) => (fs, none)
  | (fs, .withMeta m) => (fs, some m)

/-- Downloader.run: when raw validation fails, clear and refetch everything;
otherwise run the incremental update against the newest wiki document
(its resync outcome falls through to fetch_all_chapters). The returned pair
is the final content-file list and the metadata document written at the end
of the run, if any. -/
def run (fetcher : String → Option FetchResult) (rawValid : Bool)
    (metadata : Metadata) (rawFiles : List String) (wikiFiles : List WikiData) :
    List String × Option Metadata :=
  if rawValid then
    match wikiFiles with
    | [] => (rawFiles, none)
    | w :: _ =>
      match fetchUpdateModel metadata w fetcher rawFiles with
      | { outcome := .resync, .. } => persist (fetch_all_chapters fetcher rawFiles wikiFiles)
      | { outcome := .noUpdate, files := fs, .. } => (fs, none)
      | { outcome := .updated m, files := fs, .. } => (fs, some m)
  else persist (fetch_all_chapters fetcher rawFiles wikiFiles)

end Downloader

namespace Validator

/-- validator.validate_metadata, file-set part parametrised by what the
directory globs find: fail when no yaml metadata file exists, fail when no
markdown file exists, then compute missing equal to the metadata filename
set minus the on-disk markdown set; fail when that set is nonempty, fail
when its size is negative (dead branch, kept from the source where it was
meant to catch orphan on-disk files), else succeed. -/
def validate_metadata (metadataFilesExist : Bool)
    (markdownFiles : List String) (metaFilenames : List String) : Bool :=
  if !metadataFilesExist then false
  else if markdownFiles.isEmpty then false
  else
    let markdownSet := dedupBy id markdownFiles []
    let metadataSet := dedupBy id metaFilenames []
    let missing := metadataSet.filter (fun f => decide (f ∉ markdownSet))
    if 0 < missing.length then false
    else if (missing.length : Int) < 0 then false
    else true

end Validator

/-- A processed-store metadata record, as appended by BaseProcessor.run:
filename, url, revision_date (no title field). -/
structure ProcRecord where
  url : String
  filename : String
  revision_date : Int
deriving DecidableEq, Repr

/-- The processed-store metadata document. -/
structure ProcMetadata where
  subreddit : String
  wiki_uri : String
  wiki_section : String
  revision_date : Int
  chapters : List ProcRecord
deriving DecidableEq, Repr

namespace Processor

/-- Event of a processor run: deletion of a processed content file, write of
a processed content file, or a write of the processed metadata.yaml with the
given chapter list as payload. -/
inductive PEv where
  | del (f : String)
  | write (f : String)
  | meta (chs : List ProcRecord)
deriving DecidableEq, Repr

/-- Whether an event is a content-file deletion. -/
def isDel : PEv → Bool
  | .del _ => true
  | _ => false

/-- Whether an event is a content-file write. -/
def isWrite : PEv → Bool
  | .write _ => true
  | _ => false

/-- Whether an event is a metadata write. -/
def isMeta : PEv → Bool
  | .meta _ => true
  | _ => false

/-- Number of metadata writes in a trace. -/
def countMeta (evs : List PEv) : Nat := evs.countP isMeta

/-- Content-file state after replaying a trace on an initial file list. -/
def applyEvs (files : List String) : List PEv → List String
  | [] => files
  | .del f :: rest => applyEvs (files.filter (fun g => !(g == f))) rest
  | .write f :: rest => applyEvs (files ++ [f]) rest
  | .meta _ :: rest => applyEvs files rest

/-- Row loop of BaseProcessor.fetch_update over the right-merged frame: for
each raw chapter in order, a url unknown to the processed metadata is
enqueued as new; a known url with strictly newer raw revision is enqueued as
updated, its old processed file is deleted on the spot, and its old record
is dropped from the evolving chapter list; otherwise nothing happens.
origProc is the processed chapter list the merge was computed from, chs the
evolving chapter list. Returns (queue of raw filenames, surviving chapters,
deletion events in row order). -/
def fetchUpdateCore (origProc : List ProcRecord) :
    List Chapter → List ProcRecord → List String × List ProcRecord × List PEv
  | [], chs => ([], chs, [])
  | r :: rest, chs =>
    match origProc.find? (fun p => p.url == r.url) with
    | none =>
      let acc := fetchUpdateCore origProc rest chs
      (r.filename :: acc.1, acc.2.1, acc.2.2)
    | some p =>
      if p.revision_date < r.revision_date then
        let acc := fetchUpdateCore origProc rest
          (chs.filter (fun c => !(c.filename == p.filename)))
        (r.filename :: acc.1, acc.2.1, PEv.del p.filename :: acc.2.2)
      else
        fetchUpdateCore origProc rest chs

/-- BaseProcessor.fetch_update: run the row loop, then, when the queue is
nonempty, immediately write the pruned metadata to metadata.yaml (the
mid-run write of the source, before any chapter is processed). -/
def fetch_update (procChs : List ProcRecord) (rawChs : List Chapter) :
    List String × List ProcRecord × List PEv :=
  let acc := fetchUpdateCore procChs rawChs procChs
  (acc.1, acc.2.1, acc.2.2 ++ if acc.1.isEmpty then [] else [PEv.meta acc.2.1])

/-- First phase of BaseProcessor.run: on valid metadata run fetch_update; on
invalid metadata wipe the processed directory (deleting every dotted file,
metadata.yaml included), reset the chapter list and enqueue every raw
chapter (fetch_all). -/
def phase1 (valid : Bool) (procFiles : List String)
    (procChs : List ProcRecord) (rawChs : List Chapter) :
    List String × List ProcRecord × List PEv :=
  if valid then fetch_update procChs rawChs
  else (rawChs.map Chapter.filename, [],
        (procFiles.filter (fun f => hasDot f)).map PEv.del)

/-- The record BaseProcessor.run appends to processed metadata after handling
a queued file: url and revision_date looked up in raw metadata by filename.
The source raises IndexError when the filename is absent from raw metadata;
the model returns a placeholder there, and is only applied to queues drawn
from raw filenames. -/
def recordFor (rawChs : List Chapter) (fn : String) : ProcRecord :=
  match rawChs.find? (fun c => c.filename == fn) with
  | some r => { url := r.url, filename := fn, revision_date := r.revision_date }
  | none => { url := "", filename := fn, revision_date := 0 }

/-- Drain loop of BaseProcessor.run: process each queued file in FIFO order;
a successful transform writes the output file, a failed one writes nothing
and raises no error; in either case the record is appended to the metadata
chapter list. Returns the write events and the final chapter list. -/
def drain (transformOk : String → Bool) (rawChs : List Chapter) :
    List String → List ProcRecord → List PEv × List ProcRecord
  | [], chs => ([], chs)
  | fn :: rest, chs =>
    let acc := drain transformOk rawChs rest (chs ++ [recordFor rawChs fn])
    ((if transformOk fn then [PEv.write fn] else []) ++ acc.1, acc.2)

/-- BaseProcessor.run: phase 1 (validate, then fetch_update or wipe plus
fetch_all), drain the queue, and finally write the accumulated metadata.
Returns the full event trace and the final chapter list. -/
def run (valid : Bool) (procFiles : List String) (procChs : List ProcRecord)
    (rawChs : List Chapter) (transformOk : String → Bool) :
    List PEv × List ProcRecord :=
  let p := phase1 valid procFiles procChs rawChs
  let d := drain transformOk rawChs p.1 p.2.1
  (p.2.2 ++ d.1 ++ [PEv.meta d.2], d.2)

/-- BaseProcessor.validate_metadata: false when the processed metadata file
is missing or empty (modelled as none); false when any of subreddit,
wiki_uri, wiki_section differs from raw metadata; false when the processed
directory holds no markdown file; false when the on-disk markdown set and
the metadata filename set are not equal as sets; else true. -/
def validate_metadata (rawMeta : Metadata) (procMeta : Option ProcMetadata)
    (mdFiles : List String) : Bool :=
  match procMeta with
  | none => false
  | some m =>
    if m.subreddit != rawMeta.subreddit || m.wiki_uri != rawMeta.wiki_uri
        || m.wiki_section != rawMeta.wiki_section then false
    else if mdFiles.isEmpty then false
    else
      let mdSet := dedupBy id mdFiles []
      let metaSet := dedupBy id (m.chapters.map ProcRecord.filename) []
      if !(mdSet.all (fun f => decide (f ∈ metaSet))
            && metaSet.all (fun f => decide (f ∈ mdSet))) then false
      else true

end Processor

namespace ProjectConfig

/-- Python exception kinds raised by ProjectConfig initialisation. -/
inductive PyErr where
  | indexError
  | valueError
deriving DecidableEq, Repr

/-- The fields ProjectConfig derives from the wiki url. -/
structure Config where
  subreddit_name : String
  wiki_uri : String
deriving DecidableEq, Repr

/-- The literal the source splits the wiki url on. -/
def redditBase : String := "https://www.reddit.com/r/"

/-- Python strip applied with the slash character: drop leading and trailing
slashes. -/
def stripSlashes (s : String) : String :=
  String.mk (((s.toList.dropWhile (fun c => c == '/')).reverse.dropWhile
    (fun c => c == '/')).reverse)

/-- ProjectConfig constructor body: split the wiki url on the reddit base
literal and take element 1 (IndexError when the literal does not occur, so
the split has a single element); strip slashes, split on slash; fewer than
three segments is a ValueError; otherwise subreddit_name is segment 0 and
wiki_uri joins the segments from index 2 on. -/
def init (wiki_url : String) : Except PyErr Config :=
  let parts := wiki_url.splitOn redditBase
  if parts.length < 2 then .error .indexError
  else
    let uri := (stripSlashes (parts.getD 1 "")).splitOn "/"
    if uri.length < 3 then .error .valueError
    else .ok { subreddit_name := uri.getD 0 "",
               wiki_uri := String.intercalate "/" (uri.drop 2) }

end ProjectConfig

/-! Helper lemmas about the embedded operations. -/

theorem find?_eq_head?_filter {α : Type} (p : α → Bool) (l : List α) :
    l.find? p = (l.filter p).head? := by
  induction l with
  | nil => rfl
  | cons a l ih =>
    rw [List.find?_cons, List.filter_cons]
    cases h : p a with
    | true => rfl
    | false => exact ih

theorem dedupBy_subset {α : Type} (key : α → String) :
    ∀ (l : List α) (seen : List String) (x : α), x ∈ dedupBy key l seen → x ∈ l := by
  intro l
  induction l with
  | nil => intro seen x h; simp [dedupBy] at h
  | cons a l ih =>
    intro seen x h
    simp only [dedupBy] at h
    split at h
    · exact List.mem_cons_of_mem _ (ih _ _ h)
    · rcases List.mem_cons.mp h with h | h
      · exact h ▸ List.mem_cons_self _ _
      · exact List.mem_cons_of_mem _ (ih _ _ h)

theorem dedupBy_covers {α : Type} (key : α → String) :
    ∀ (l : List α) (seen : List String) (x : α), x ∈ l →
      key x ∈ seen ∨ key x ∈ (dedupBy key l seen).map key := by
  intro l
  induction l with
  | nil => intro seen x h; simp at h
  | cons a l ih =>
    intro seen x h
    rcases List.mem_cons.mp h with h | h
    · subst h
      simp only [dedupBy]
      split
      · left; assumption
      · right; simp
    · simp only [dedupBy]
      split
      · exact ih seen x h
      · rcases ih (key a :: seen) x h with h2 | h2
        · rcases List.mem_cons.mp h2 with h3 | h3
          · right
            rw [List.map_cons]
            exact h3 ▸ List.mem_cons_self _ _
          · left
            exact h3
        · right
          rw [List.map_cons]
          exact List.mem_cons_of_mem _ h2

theorem dedupBy_filter_seen {α : Type} (key : α → String) :
    ∀ (l : List α) (seen : List String) (u : String), u ∈ seen →
      (dedupBy key l seen).filter (fun c => key c == u) = [] := by
  intro l
  induction l with
  | nil => intro seen u _; rfl
  | cons a l ih =>
    intro seen u hu
    simp only [dedupBy]
    split
    · exact ih seen u hu
    · rw [List.filter_cons]
      have hne : (key a == u) = false := by
        rename_i hnot
        exact beq_eq_false_iff_ne.mpr (fun he => hnot (he ▸ hu))
      rw [hne]
      simp only [Bool.false_eq_true, if_false]
      exact ih (key a :: seen) u (List.mem_cons_of_mem _ hu)

theorem dedupBy_filter_take {α : Type} (key : α → String) :
    ∀ (l : List α) (seen : List String) (u : String), u ∉ seen →
      (dedupBy key l seen).filter (fun c => key c == u)
        = (l.filter (fun c => key c == u)).take 1 := by
  intro l
  induction l with
  | nil => intro seen u _; rfl
  | cons a l ih =>
    intro seen u hu
    simp only [dedupBy]
    split
    · rename_i hin
      have hne : (key a == u) = false :=
        beq_eq_false_iff_ne.mpr (fun he => hu (he ▸ hin))
      rw [List.filter_cons, hne]
      simp only [Bool.false_eq_true, if_false]
      exact ih seen u hu
    · rename_i hnin
      cases heq : (key a == u) with
      | true =>
        have hkey : key a = u := by simpa using heq
        rw [List.filter_cons, List.filter_cons, heq]
        simp only [if_true]
        rw [List.take_succ_cons, List.take_zero]
        have : (dedupBy key l (key a :: seen)).filter (fun c => key c == u) = [] :=
          dedupBy_filter_seen key l (key a :: seen) u (hkey ▸ List.mem_cons_self _ _)
        rw [this]
      | false =>
        rw [List.filter_cons, List.filter_cons, heq]
        simp only [Bool.false_eq_true, if_false]
        have hne : key a ≠ u := beq_eq_false_iff_ne.mp heq
        have hu2 : u ∉ key a :: seen := by
          intro hmem
          rcases List.mem_cons.mp hmem with h | h
          · exact hne h.symm
          · exact hu h
        exact ih (key a :: seen) u hu2

theorem delete_old_chapters_deleted_nil (chapters : List Chapter) :
    (Downloader.delete_old_chapters chapters).2 = [] := by
  unfold Downloader.delete_old_chapters
  simp only
  rw [List.filter_eq_nil_iff.mpr, List.map_nil]
  intro c hc
  have hcov := dedupBy_covers Chapter.url
    (List.insertionSort Downloader.chapRel chapters) [] c hc
  rcases hcov with h | h
  · simp at h
  · simp only [decide_eq_true_eq]
    intro hnot
    exact hnot h

theorem all_imp {α : Type} {p q : α → Bool} {l : List α}
    (h : l.all p = true) (himp : ∀ a, p a = true → q a = true) : l.all q = true := by
  rw [List.all_eq_true] at h ⊢
  exact fun a ha => himp a (h a ha)

theorem all_del_map (fs : List String) :
    ((fs.map Processor.PEv.del).all Processor.isDel) = true := by
  rw [List.all_eq_true]
  intro e he
  rcases List.mem_map.mp he with ⟨f, _, rfl⟩
  rfl

theorem fetchUpdateCore_evs_del (orig : List ProcRecord) :
    ∀ (raws : List Chapter) (chs : List ProcRecord),
      ((Processor.fetchUpdateCore orig raws chs).2.2).all Processor.isDel = true := by
  intro raws
  induction raws with
  | nil => intro chs; rfl
  | cons r rest ih =>
    intro chs
    simp only [Processor.fetchUpdateCore]
    cases orig.find? (fun p => p.url == r.url) with
    | none => exact ih chs
    | some p =>
      by_cases h : p.revision_date < r.revision_date
      · simp only [if_pos h, List.all_cons, Bool.and_eq_true]
        exact ⟨rfl, ih _⟩
      · simp only [if_neg h]
        exact ih chs

theorem drain_evs_write (tOk : String → Bool) (rawChs : List Chapter) :
    ∀ (q : List String) (chs : List ProcRecord),
      ((Processor.drain tOk rawChs q chs).1.all Processor.isWrite) = true := by
  intro q
  induction q with
  | nil => intro chs; rfl
  | cons fn rest ih =>
    intro chs
    simp only [Processor.drain, List.all_append, Bool.and_eq_true]
    refine ⟨?_, ih _⟩
    cases h : tOk fn <;> simp [h, Processor.isWrite]

theorem countMeta_append (a b : List Processor.PEv) :
    Processor.countMeta (a ++ b) = Processor.countMeta a + Processor.countMeta b := by
  simp [Processor.countMeta, List.countP_append]

theorem countMeta_of_all_del {evs : List Processor.PEv}
    (h : evs.all Processor.isDel = true) : Processor.countMeta evs = 0 := by
  rw [Processor.countMeta, List.countP_eq_zero]
  intro e he
  have hd := List.all_eq_true.mp h e he
  cases e <;> simp_all [Processor.isDel, Processor.isMeta]

theorem countMeta_of_all_write {evs : List Processor.PEv}
    (h : evs.all Processor.isWrite = true) : Processor.countMeta evs = 0 := by
  rw [Processor.countMeta, List.countP_eq_zero]
  intro e he
  have hd := List.all_eq_true.mp h e he
  cases e <;> simp_all [Processor.isWrite, Processor.isMeta]

/-! Claim theorems. -/

/-- C2: the claim states that delete_old_chapters deletes the content files
of every non-kept duplicate record. In the source the deletion mask compares
urls against the deduplicated frame, every url of the sorted frame survives
deduplication, so the set of rows to delete is always empty and no file is
ever deleted, contradicting the documented eviction behaviour. This theorem
evaluates the code on all inputs: the deleted-file list is always empty. -/
theorem C2_delete_old_chapters_never_deletes (chapters : List Chapter) :
    (Downloader.delete_old_chapters chapters).2 = [] :=
  delete_old_chapters_deleted_nil chapters

/-- C1 counterexample: the claim states the downstream metadata file is
written at most once per run, at the end after the queue is drained. On a
concrete incremental run with one updated chapter, the processor writes
metadata twice, and the first write (event index 1, payload with the
outdated record already removed and the replacement not yet added) happens
before the queue is drained, so an intermediate state is persisted. -/
theorem C1_counterexample :
    Processor.countMeta (Processor.run true [] [⟨"u", "old.md", 5⟩]
        [⟨"u", "t", "new.md", 10⟩] (fun _ => true)).1 = 2
      ∧ (Processor.run true [] [⟨"u", "old.md", 5⟩]
          [⟨"u", "t", "new.md", 10⟩] (fun _ => true)).1[1]?
        = some (Processor.PEv.meta []) := by
  decide

/-- C1 amended: the processor writes its metadata file exactly once at the
end of every run, plus exactly one additional mid-run write inside
fetch_update when the incremental queue is nonempty (persisting the state
with outdated records removed before the drain); so the count of metadata
writes is two on an incremental run with work and one otherwise. -/
theorem C1_metadata_write_count (v : Bool) (pf : List String)
    (pc : List ProcRecord) (rc : List Chapter) (tOk : String → Bool) :
    Processor.countMeta (Processor.run v pf pc rc tOk).1
      = if v && !(Processor.fetch_update pc rc).1.isEmpty then 2 else 1 := by
  have hdrain : ∀ (q : List String) (chs : List ProcRecord),
      Processor.countMeta (Processor.drain tOk rc q chs).1 = 0 :=
    fun q chs => countMeta_of_all_write (drain_evs_write tOk rc q chs)
  simp only [Processor.run]
  rw [countMeta_append, countMeta_append, hdrain]
  cases v with
  | false =>
    simp only [Processor.phase1, Bool.false_eq_true, if_false, Bool.false_and]
    rw [countMeta_of_all_del (all_del_map _)]
    simp [Processor.countMeta, List.countP_cons, Processor.isMeta]
  | true =>
    simp only [Processor.phase1, if_true, Bool.true_and]
    rw [show (Processor.fetch_update pc rc).2.2
        = (Processor.fetchUpdateCore pc rc pc).2.2
          ++ (if (Processor.fetchUpdateCore pc rc pc).1.isEmpty then []
              else [Processor.PEv.meta (Processor.fetchUpdateCore pc rc pc).2.1]) from rfl]
    rw [countMeta_append, countMeta_of_all_del (fetchUpdateCore_evs_del pc rc pc)]
    rw [show (Processor.fetch_update pc rc).1 = (Processor.fetchUpdateCore pc rc pc).1 from rfl]
    cases hq : (Processor.fetchUpdateCore pc rc pc).1.isEmpty with
    | true => simp [hq, Processor.countMeta, List.countP_cons, Processor.isMeta]
    | false => simp [hq, Processor.countMeta, List.countP_cons, Processor.isMeta]

/-- C3 counterexample: the claim states the old content file of an Updated
record is deleted only after the replacement is produced and the store never
lacks both. On a concrete incremental run with one updated chapter, the
deletion is the first event, the replacement write is the third, and after
the first two events the store holds neither the old nor the new file. -/
theorem C3_counterexample :
    Processor.applyEvs ["old.md"]
        ((Processor.run true [] [⟨"u", "old.md", 5⟩]
            [⟨"u", "t", "new.md", 10⟩] (fun _ => true)).1.take 2) = []
      ∧ (Processor.run true [] [⟨"u", "old.md", 5⟩]
          [⟨"u", "t", "new.md", 10⟩] (fun _ => true)).1[0]?
        = some (Processor.PEv.del "old.md")
      ∧ (Processor.run true [] [⟨"u", "old.md", 5⟩]
          [⟨"u", "t", "new.md", 10⟩] (fun _ => true)).1[2]?
        = some (Processor.PEv.write "new.md") := by
  decide

/-- C3 amended: in the processor the order is the converse of the claim:
every content-file deletion happens in the fetch_update phase, before the
drain, and every content-file write happens in the drain, after all
deletions; between an Updated record's deletion and its drain write the
store holds neither the old nor the new artifact. The run trace decomposes
into the phase-1 events (which contain no write) followed by the drain
events (which contain no deletion) and the final metadata write. -/
theorem C3_deletions_precede_writes (v : Bool) (pf : List String)
    (pc : List ProcRecord) (rc : List Chapter) (tOk : String → Bool) :
    (Processor.run v pf pc rc tOk).1
        = (Processor.phase1 v pf pc rc).2.2
          ++ (Processor.drain tOk rc (Processor.phase1 v pf pc rc).1
                (Processor.phase1 v pf pc rc).2.1).1
          ++ [Processor.PEv.meta (Processor.run v pf pc rc tOk).2]
      ∧ ((Processor.phase1 v pf pc rc).2.2.all
          (fun e => !(Processor.isWrite e))) = true
      ∧ ((Processor.drain tOk rc (Processor.phase1 v pf pc rc).1
            (Processor.phase1 v pf pc rc).2.1).1.all
          (fun e => !(Processor.isDel e))) = true := by
  refine ⟨rfl, ?_, ?_⟩
  · cases v with
    | false =>
      simp only [Processor.phase1, Bool.false_eq_true, if_false]
      refine all_imp (all_del_map _) ?_
      intro e he
      cases e <;> simp_all [Processor.isDel, Processor.isWrite]
    | true =>
      simp only [Processor.phase1, if_true]
      rw [show (Processor.fetch_update pc rc).2.2
          = (Processor.fetchUpdateCore pc rc pc).2.2
            ++ (if (Processor.fetchUpdateCore pc rc pc).1.isEmpty then []
                else [Processor.PEv.meta (Processor.fetchUpdateCore pc rc pc).2.1]) from rfl]
      rw [List.all_append, Bool.and_eq_true]
      constructor
      · refine all_imp (fetchUpdateCore_evs_del pc rc pc) ?_
        intro e he
        cases e <;> simp_all [Processor.isDel, Processor.isWrite]
      · cases hq : (Processor.fetchUpdateCore pc rc pc).1.isEmpty <;>
          simp [Processor.isWrite]
  · refine all_imp (drain_evs_write tOk rc _ _) ?_
    intro e he
    cases e <;> simp_all [Processor.isDel, Processor.isWrite]

/-- C4: the claim states that a record whose transform fails is excluded
from the persisted processed metadata while the remaining queue items are
still processed. In the source, run appends the record to metadata
regardless of what process_chapter did, so on a concrete run where the
transform of bad.md finds no title (logged and skipped, no output file
written) and good.md succeeds, the final persisted metadata contains the
failed record even though no write event for bad.md exists in the trace;
the remaining queue item was indeed still processed. -/
theorem C4_failed_record_still_persisted :
    (Processor.run true [] [] [⟨"u", "t", "bad.md", 7⟩, ⟨"v", "t", "good.md", 8⟩]
        (fun f => f == "good.md")).2
      = [⟨"u", "bad.md", 7⟩, ⟨"v", "good.md", 8⟩]
      ∧ (Processor.run true [] [] [⟨"u", "t", "bad.md", 7⟩, ⟨"v", "t", "good.md", 8⟩]
          (fun f => f == "good.md")).1
        = [Processor.PEv.meta [],
           Processor.PEv.write "good.md",
           Processor.PEv.meta [⟨"u", "bad.md", 7⟩, ⟨"v", "good.md", 8⟩]] := by
  decide

/-- C5: the claim states that validate fails in both directions of a
file-set mismatch for every store. For the raw store the orphan direction is
dead code (a size check that can never be negative), so an on-disk markdown
file that no metadata record references does not make validation fail: at
the concrete failing input below, b.md is on disk, is referenced by no
metadata record, and validate_metadata still returns true. -/
theorem C5_raw_validate_ignores_orphans :
    Validator.validate_metadata true ["a.md", "b.md"] ["a.md"] = true
      ∧ "b.md" ∈ ["a.md", "b.md"] ∧ "b.md" ∉ ["a.md"] := by
  decide

/-- C6 counterexample: the claim states that for every store validation
fails whenever any of the three identity fields differs from the upstream
identity. For the raw store, compare_meta_and_wiki only compares wiki_uri
and wiki_section: on a concrete pair differing only in the subreddit field,
the comparison still reports the metadata as valid. -/
theorem C6_counterexample :
    (Downloader.compare_meta_and_wiki
        { subreddit := "a", wiki_uri := "w", wiki_section := "s",
          revision_date := 0, chapters := [] }
        { subreddit := "b", wiki_uri := "w", wiki_section := "s",
          revision_date := 0, chapters := [] }).1 = true
      ∧ ("a" : String) ≠ "b" := by
  decide

/-- C6 amended: the processed store's validation fails whenever any of the
three identity fields (subreddit, wiki_uri, wiki_section) differs from the
raw metadata; the raw store's wiki comparison fails exactly when wiki_uri
or wiki_section differs — its subreddit field is never compared. -/
theorem C6_identity_checks (rawMeta : Metadata) (m : ProcMetadata)
    (mdFiles : List String) (dmeta : Metadata) (wiki : WikiData) :
    ((m.subreddit ≠ rawMeta.subreddit ∨ m.wiki_uri ≠ rawMeta.wiki_uri ∨
        m.wiki_section ≠ rawMeta.wiki_section) →
      Processor.validate_metadata rawMeta (some m) mdFiles = false)
    ∧ ((Downloader.compare_meta_and_wiki dmeta wiki).1 = false ↔
        (dmeta.wiki_uri ≠ wiki.wiki_uri ∨ dmeta.wiki_section ≠ wiki.wiki_section)) := by
  constructor
  · intro h
    have hcond : (m.subreddit != rawMeta.subreddit || m.wiki_uri != rawMeta.wiki_uri
        || m.wiki_section != rawMeta.wiki_section) = true := by
      rcases h with h | h | h <;> simp [bne_iff_ne, h]
    simp [Processor.validate_metadata, hcond]
  · unfold Downloader.compare_meta_and_wiki
    split_ifs with h1 h2 <;> simp_all [bne_iff_ne]

/-- C7 counterexample: the claim states the two most-recently-revised
downstream records are unconditionally re-enqueued regardless of whether
the diff produced work. On a concrete input where the wiki and the metadata
hold the same urls (empty diff), fetch_update returns early and enqueues
nothing, although two lookback candidates exist. -/
theorem C7_counterexample :
    (Downloader.fetchUpdateModel
        { subreddit := "s", wiki_uri := "w", wiki_section := "sec", revision_date := 0,
          chapters := [⟨"A", "t", "fa.md", 10⟩, ⟨"B", "t", "fb.md", 9⟩] }
        { subreddit := "s", wiki_uri := "w", wiki_section := "sec", revision_date := 0,
          chapters := [⟨"A", "t"⟩, ⟨"B", "t"⟩] }
        (fun _ => none) []).queue = []
      ∧ Downloader.topTwo [⟨"A", "t", "fa.md", 10⟩, ⟨"B", "t", "fb.md", 9⟩]
        = ["A", "B"] := by
  decide

/-- C7 amended: the two most-recently-revised downstream records are
re-enqueued only when the diff found at least one missing chapter: with an
empty missing set fetch_update returns early and enqueues nothing at all;
when the comparison succeeds and the missing set is nonempty, the queue is
exactly the missing urls followed by the two lookback urls. -/
theorem C7_lookback_only_with_missing (m : Metadata) (w : WikiData)
    (f : String → Option FetchResult) (fs : List String) :
    ((Downloader.compare_meta_and_wiki m w).2 = [] →
        (Downloader.fetchUpdateModel m w f fs).queue = [])
    ∧ ((Downloader.compare_meta_and_wiki m w).1 = true →
        (Downloader.compare_meta_and_wiki m w).2 ≠ [] →
        (Downloader.fetchUpdateModel m w f fs).queue
          = (Downloader.compare_meta_and_wiki m w).2
            ++ Downloader.topTwo m.chapters) := by
  constructor
  · intro h
    unfold Downloader.fetchUpdateModel
    by_cases h1 : (Downloader.compare_meta_and_wiki m w).1 = false
    · simp [h1]
    · simp [h1, h]
  · intro h1 h2
    unfold Downloader.fetchUpdateModel
    simp [h1, List.isEmpty_iff, h2]

/-- C7 witness: on a concrete input with one missing chapter, the amended
theorem yields the queue shape missing-urls plus lookback urls. -/
theorem C7_witness :
    (Downloader.fetchUpdateModel
        { subreddit := "s", wiki_uri := "w", wiki_section := "sec", revision_date := 0,
          chapters := [⟨"A", "t", "fa.md", 5⟩] }
        { subreddit := "s", wiki_uri := "w", wiki_section := "sec", revision_date := 0,
          chapters := [⟨"A", "t"⟩, ⟨"B", "t"⟩] }
        (fun _ => none) []).queue
      = (Downloader.compare_meta_and_wiki
          { subreddit := "s", wiki_uri := "w", wiki_section := "sec", revision_date := 0,
            chapters := [⟨"A", "t", "fa.md", 5⟩] }
          { subreddit := "s", wiki_uri := "w", wiki_section := "sec", revision_date := 0,
            chapters := [⟨"A", "t"⟩, ⟨"B", "t"⟩] }).2
        ++ Downloader.topTwo [⟨"A", "t", "fa.md", 5⟩] :=
  (C7_lookback_only_with_missing _ _ _ _).2 (by decide) (by decide)

/-- C6 witness: on a concrete pair of processed and raw metadata differing
only in the subreddit field, processed-store validation fails. -/
theorem C6_witness :
    Processor.validate_metadata
        { subreddit := "r1", wiki_uri := "w", wiki_section := "s",
          revision_date := 0, chapters := [] }
        (some { subreddit := "r2", wiki_uri := "w", wiki_section := "s",
                revision_date := 0, chapters := [] })
        [] = false :=
  (C6_identity_checks
      { subreddit := "r1", wiki_uri := "w", wiki_section := "s",
        revision_date := 0, chapters := [] }
      { subreddit := "r2", wiki_uri := "w", wiki_section := "s",
        revision_date := 0, chapters := [] }
      []
      { subreddit := "r1", wiki_uri := "w", wiki_section := "s",
        revision_date := 0, chapters := [] }
      { subreddit := "r1", wiki_uri := "w", wiki_section := "s",
        revision_date := 0, chapters := [] }).1 (Or.inl (by decide))

theorem compare_snd_subset (m : Metadata) (w : WikiData) (u : String) :
    u ∈ (Downloader.compare_meta_and_wiki m w).2 →
      u ∈ w.chapters.map WikiChapter.url := by
  unfold Downloader.compare_meta_and_wiki
  split_ifs with h1 h2
  · intro h; simp at h
  · intro h; simp at h
  · intro h
    have hsub := dedupBy_subset id _ _ _ h
    exact (List.mem_filter.mp hsub).1

theorem filterMap_fetch_not_mem (fetcher : String → Option FetchResult) :
    ∀ (q : List String) (u : String), u ∉ q →
      ((q.filterMap (fun x => (fetcher x).map (Downloader.mkChapter x))).filter
        (fun c => c.url == u)) = [] := by
  intro q
  induction q with
  | nil => intro u _; rfl
  | cons x xs ih =>
    intro u hu
    have hux : u ≠ x := fun he => hu (he ▸ List.mem_cons_self _ _)
    have hxs : u ∉ xs := fun he => hu (List.mem_cons_of_mem _ he)
    rw [List.filterMap_cons]
    cases hf : fetcher x with
    | none => exact ih u hxs
    | some r =>
      rw [Option.map_some', List.filter_cons]
      have hne : ((Downloader.mkChapter x r).url == u) = false :=
        beq_eq_false_iff_ne.mpr (fun he => hux he.symm)
      rw [hne]
      simp only [Bool.false_eq_true, if_false]
      exact ih u hxs

/-- C8 counterexample: the claim states that every downstream record whose
url is absent upstream is left untouched by the reconciliation. On a
concrete run, the downstream-only url X is among the two most-recently-
revised records, gets re-fetched by the lookback guard at a newer revision,
and the duplicate collapse keeps the refetched record, so the persisted
record for X differs from the pre-run record although X does not occur in
the wiki document. -/
theorem C8_counterexample :
    "X" ∈ ({ subreddit := "s", wiki_uri := "w", wiki_section := "sec",
              revision_date := 0,
              chapters := [⟨"X", "tX", "fX.md", 10⟩] } : Metadata).chapters.map Chapter.url
      ∧ "X" ∉ ({ subreddit := "s", wiki_uri := "w", wiki_section := "sec",
                  revision_date := 0,
                  chapters := [⟨"Y", "tY"⟩] } : WikiData).chapters.map WikiChapter.url
      ∧ lookupUrl (Downloader.resultChapters
            (Downloader.fetchUpdateModel
              { subreddit := "s", wiki_uri := "w", wiki_section := "sec",
                revision_date := 0, chapters := [⟨"X", "tX", "fX.md", 10⟩] }
              { subreddit := "s", wiki_uri := "w", wiki_section := "sec",
                revision_date := 0, chapters := [⟨"Y", "tY"⟩] }
              (fun u => if u == "Y" then some ⟨"tY", "fY.md", 5⟩
                        else if u == "X" then some ⟨"tX2", "fX2.md", 20⟩ else none)
              ["fX.md"])
            { subreddit := "s", wiki_uri := "w", wiki_section := "sec",
              revision_date := 0, chapters := [⟨"X", "tX", "fX.md", 10⟩] }) "X"
        ≠ lookupUrl [⟨"X", "tX", "fX.md", 10⟩] "X" := by
  decide

/-- C8 amended: a downstream record whose url is absent upstream is left
unchanged by the incremental update, and its content file survives,
provided the url is not among the two most-recently-revised records that
the lookback guard unconditionally re-fetches (a re-fetched removed-
upstream record can be replaced by its freshly fetched version); the
pre-run content files are preserved in every case covered here. -/
theorem C8_removed_upstream_retained (meta : Metadata) (wiki : WikiData)
    (fetcher : String → Option FetchResult) (files : List String) (u : String)
    (hvalid : (Downloader.compare_meta_and_wiki meta wiki).1 = true)
    (huniq : (meta.chapters.filter (fun c => c.url == u)).length = 1)
    (htop : u ∉ Downloader.topTwo meta.chapters)
    (hwiki : u ∉ wiki.chapters.map WikiChapter.url) :
    lookupUrl (Downloader.resultChapters
        (Downloader.fetchUpdateModel meta wiki fetcher files) meta) u
      = lookupUrl meta.chapters u
    ∧ files ⊆ (Downloader.fetchUpdateModel meta wiki fetcher files).files := by
  by_cases hemp : (Downloader.compare_meta_and_wiki meta wiki).2.isEmpty = true
  · have hres : Downloader.fetchUpdateModel meta wiki fetcher files
        = { outcome := .noUpdate, files := files, queue := [] } := by
      unfold Downloader.fetchUpdateModel
      simp [hvalid, hemp]
    rw [hres]
    exact ⟨rfl, fun a ha => ha⟩
  · have hques : u ∉ (Downloader.compare_meta_and_wiki meta wiki).2
        ++ Downloader.topTwo meta.chapters := by
      rw [List.mem_append]
      rintro (h | h)
      · exact hwiki (compare_snd_subset meta wiki u h)
      · exact htop h
    have hres : Downloader.fetchUpdateModel meta wiki fetcher files
        = { outcome := .updated { meta with chapters :=
              (Downloader.delete_old_chapters (meta.chapters
                ++ ((Downloader.compare_meta_and_wiki meta wiki).2
                    ++ Downloader.topTwo meta.chapters).filterMap
                  (fun x => (fetcher x).map (Downloader.mkChapter x)))).1 },
            files := (files
              ++ (((Downloader.compare_meta_and_wiki meta wiki).2
                    ++ Downloader.topTwo meta.chapters).filterMap
                  (fun x => (fetcher x).map (Downloader.mkChapter x))).map
                    Chapter.filename).filter
              (fun f => decide (f ∉ (Downloader.delete_old_chapters (meta.chapters
                ++ ((Downloader.compare_meta_and_wiki meta wiki).2
                    ++ Downloader.topTwo meta.chapters).filterMap
                  (fun x => (fetcher x).map (Downloader.mkChapter x)))).2)),
            queue := (Downloader.compare_meta_and_wiki meta wiki).2
              ++ Downloader.topTwo meta.chapters } := by
      unfold Downloader.fetchUpdateModel
      simp [hvalid, hemp]
    rw [hres]
    set fetched := ((Downloader.compare_meta_and_wiki meta wiki).2
        ++ Downloader.topTwo meta.chapters).filterMap
      (fun x => (fetcher x).map (Downloader.mkChapter x)) with hfdef
    have hdel : (Downloader.delete_old_chapters (meta.chapters ++ fetched)).2 = [] :=
      delete_old_chapters_deleted_nil _
    constructor
    · obtain ⟨c, hc⟩ := List.length_eq_one.mp huniq
      have hfet : fetched.filter (fun c2 => c2.url == u) = [] :=
        filterMap_fetch_not_mem fetcher _ u hques
      have happ : (meta.chapters ++ fetched).filter (fun c2 => c2.url == u) = [c] := by
        rw [List.filter_append, hc, hfet, List.append_nil]
      have hperm : (List.insertionSort Downloader.chapRel
          (meta.chapters ++ fetched)).filter (fun c2 => c2.url == u) = [c] := by
        have hp := (List.perm_insertionSort Downloader.chapRel
          (meta.chapters ++ fetched)).filter (fun c2 => c2.url == u)
        rw [happ] at hp
        exact List.perm_singleton.mp hp
      have hded : (dedupBy Chapter.url (List.insertionSort Downloader.chapRel
          (meta.chapters ++ fetched)) []).filter (fun c2 => c2.url == u) = [c] := by
        rw [dedupBy_filter_take Chapter.url _ [] u (List.not_mem_nil u), hperm]
        rfl
      show lookupUrl (Downloader.delete_old_chapters (meta.chapters ++ fetched)).1 u
          = lookupUrl meta.chapters u
      rw [lookupUrl, lookupUrl, find?_eq_head?_filter, find?_eq_head?_filter, hc]
      rw [show (Downloader.delete_old_chapters (meta.chapters ++ fetched)).1
          = dedupBy Chapter.url (List.insertionSort Downloader.chapRel
              (meta.chapters ++ fetched)) [] from rfl]
      rw [hded]
    · rw [hdel]
      simp only [List.not_mem_nil, not_false_iff, decide_True, List.filter_true]
      exact List.subset_append_left _ _

/-- C8 witness: a concrete run with one missing upstream chapter and a
downstream-only record X outside the lookback window: the record for X is
unchanged and the pre-run file survives. -/
theorem C8_witness :
    lookupUrl (Downloader.resultChapters
        (Downloader.fetchUpdateModel
          { subreddit := "s", wiki_uri := "w", wiki_section := "sec",
            revision_date := 0,
            chapters := [⟨"X", "t", "fx.md", 1⟩, ⟨"A", "t", "fa.md", 10⟩,
                         ⟨"B", "t", "fb.md", 9⟩] }
          { subreddit := "s", wiki_uri := "w", wiki_section := "sec",
            revision_date := 0, chapters := [⟨"A", "t"⟩, ⟨"B", "t"⟩, ⟨"C", "t"⟩] }
          (fun _ => none) ["fx.md"])
        { subreddit := "s", wiki_uri := "w", wiki_section := "sec",
          revision_date := 0,
          chapters := [⟨"X", "t", "fx.md", 1⟩, ⟨"A", "t", "fa.md", 10⟩,
                       ⟨"B", "t", "fb.md", 9⟩] }) "X"
      = lookupUrl [⟨"X", "t", "fx.md", 1⟩, ⟨"A", "t", "fa.md", 10⟩,
                   ⟨"B", "t", "fb.md", 9⟩] "X"
    ∧ ["fx.md"] ⊆ (Downloader.fetchUpdateModel
        { subreddit := "s", wiki_uri := "w", wiki_section := "sec",
          revision_date := 0,
          chapters := [⟨"X", "t", "fx.md", 1⟩, ⟨"A", "t", "fa.md", 10⟩,
                       ⟨"B", "t", "fb.md", 9⟩] }
        { subreddit := "s", wiki_uri := "w", wiki_section := "sec",
          revision_date := 0, chapters := [⟨"A", "t"⟩, ⟨"B", "t"⟩, ⟨"C", "t"⟩] }
        (fun _ => none) ["fx.md"]).files :=
  C8_removed_upstream_retained
    { subreddit := "s", wiki_uri := "w", wiki_section := "sec",
      revision_date := 0,
      chapters := [⟨"X", "t", "fx.md", 1⟩, ⟨"A", "t", "fa.md", 10⟩,
                   ⟨"B", "t", "fb.md", 9⟩] }
    { subreddit := "s", wiki_uri := "w", wiki_section := "sec",
      revision_date := 0, chapters := [⟨"A", "t"⟩, ⟨"B", "t"⟩, ⟨"C", "t"⟩] }
    (fun _ => none) ["fx.md"] "X"
    (by decide) (by decide) (by decide) (by decide)

/-- C9: when raw validation fails and the wiki directory holds no manifest
yaml, Downloader.run goes through fetch_all_chapters, which first removes
every dotted file of the raw directory (metadata.yaml included) and then
returns the empty dict, so run persists no metadata and the raw store is
left empty rather than preserved. -/
theorem C9_resync_with_no_wiki_empties_store (fetcher : String → Option FetchResult)
    (meta : Metadata) (rawFiles : List String) :
    (Downloader.run fetcher false meta rawFiles []).2 = none
      ∧ (Downloader.run fetcher false meta rawFiles []).1
          = rawFiles.filter (fun f => !(hasDot f))
      ∧ "metadata.yaml" ∉ (Downloader.run fetcher false meta rawFiles []).1 := by
  refine ⟨rfl, rfl, fun hmem => ?_⟩
  have h2 : (Downloader.run fetcher false meta rawFiles []).1
      = rawFiles.filter (fun f => !(hasDot f)) := rfl
  rw [h2] at hmem
  have h := (List.mem_filter.mp hmem).2
  exact absurd h (by decide)

/-- C10: ProjectConfig construction raises ValueError exactly when the wiki
url contains the reddit base literal (the split has a second element) whose
following part, stripped of slashes, splits into fewer than three path
segments; when the literal does not occur at all the construction raises
IndexError instead. -/
theorem C10_project_config_error_classification (url : String) :
    (ProjectConfig.init url = .error .valueError ↔
      2 ≤ (url.splitOn ProjectConfig.redditBase).length ∧
        ((ProjectConfig.stripSlashes
            ((url.splitOn ProjectConfig.redditBase).getD 1 "")).splitOn "/").length < 3)
      ∧ (ProjectConfig.init url = .error .indexError ↔
          (url.splitOn ProjectConfig.redditBase).length < 2) := by
  simp only [ProjectConfig.init]
  split_ifs with h1 h2 <;>
    constructor <;>
    simp_all

end HFY
